import Mathlib

/-!
Verification of the mctui launcher core: a shallow embedding of the
download/verification engine (internal/download), the platform-rule
evaluator, argument substitution and launch pipeline (internal/launch),
and the Java runtime selector (internal/java), together with theorems
settling the frozen specification claims.

Modelling conventions:
* File contents are byte lists (`Content := List Nat`); the SHA1 function
  is an explicit parameter `hash : Content → String` since the claims only
  depend on equality of digests, never on concrete SHA1 values.
* The filesystem is a map `String → Option Content`; directories always
  exist (`os.MkdirAll` is modelled as always succeeding), and
  `os.Create`/`Write`/`Close`/`os.Rename` input-output errors are not
  modelled; the transport outcome of one HTTP GET (after the internal
  retries of retryablehttp) is `Net := String → Option (Nat × Content)`
  (`none` = transport error, otherwise status code and body).
* The concurrent worker pool of `Manager.Download` is modelled by its
  sequentialisation over the pre-filled queue: with no cancellation every
  enqueued item is processed exactly once, and the per-item bookkeeping
  (completed/failed counters, error list, filesystem effects) is
  order-insensitive for the properties proved here.  Progress reporting
  (a best-effort periodic tick) is not modelled.
* `filepath.Join` is modelled as interposing the separator, faithful for
  the already-clean relative components this code joins.
-/

namespace Mctui

/-- Bytes of a file or response body. -/
abbrev Content := List Nat

/-- The local filesystem: final and temporary paths to contents. -/
abbrev FS := String → Option Content

/-- Transport outcome of an HTTP GET for each URL: `none` models a
transport error surfacing after retries, `some (status, body)` a
response. -/
abbrev Net := String → Option (Nat × Content)

/-- Point update of the filesystem map. -/
def fsSet (fs : FS) (p : String) (c : Option Content) : FS :=
  fun q => if q = p then c else fs q

/-- download.Item: a single download work item (URL, destination path,
optional expected SHA1, expected size, priority). -/
structure Item where
  url : String
  path : String
  sha1 : String
  size : Int
  priority : Int
deriving DecidableEq

/-- The pre-download check of Manager.downloadItem: `hashFile(item.Path)`
succeeded and the digest equals the declared expectation. -/
def existingMatches (hash : Content → String) (item : Item) (fs : FS) : Bool :=
  match fs item.path with
  | some c => hash c == item.sha1
  | none => false

/-- Outcome of Manager.downloadItem: the error (if any), the filesystem
after the call, and the list of URLs for which a GET was issued. -/
structure ItemResult where
  err : Option String
  fs : FS
  requests : List String

/-- Manager.downloadItem: skip when the destination already holds content
with the declared hash; otherwise GET the URL, stream into
`path ++ ".tmp"` while hashing, verify the digest when one is declared,
and rename the temporary file onto the final path.  Every failure path
removes only the temporary file. -/
def downloadItem (hash : Content → String) (item : Item) (fs : FS) (net : Net) :
    ItemResult :=
  if item.sha1 ≠ "" ∧ existingMatches hash item fs then
    { err := none, fs := fs, requests := [] }
  else
    match net item.url with
    | none => { err := some "downloading", fs := fs, requests := [item.url] }
    | some (status, body) =>
      if status ≠ 200 then
        { err := some "unexpected status", fs := fs, requests := [item.url] }
      else
        let tmp := item.path ++ ".tmp"
        let fs1 := fsSet fs tmp (some body)
        if item.sha1 ≠ "" ∧ hash body ≠ item.sha1 then
          { err := some "hash mismatch", fs := fsSet fs1 tmp none,
            requests := [item.url] }
        else
          { err := none,
            fs := fsSet (fsSet fs1 tmp none) item.path (some body),
            requests := [item.url] }

/-- download.Result: counters and per-item errors of a batch. -/
structure Result where
  completed : Nat
  failed : Nat
  errors : List String
deriving DecidableEq

/-- State threaded through a batch: the running Result, the filesystem,
and all URLs requested so far. -/
structure BatchOut where
  res : Result
  fs : FS
  requests : List String

/-- One worker iteration of Manager.Download: run downloadItem and
update the shared counters and error list. -/
def downloadStep (hash : Content → String) (net : Net) (st : BatchOut)
    (item : Item) : BatchOut :=
  let r := downloadItem hash item st.fs net
  match r.err with
  | some e =>
    { res := { completed := st.res.completed, failed := st.res.failed + 1,
               errors := st.res.errors ++ [item.url ++ ": " ++ e] },
      fs := r.fs, requests := st.requests ++ r.requests }
  | none =>
    { res := { completed := st.res.completed + 1, failed := st.res.failed,
               errors := st.res.errors },
      fs := r.fs, requests := st.requests ++ r.requests }

/-- Manager.Download in the run where the context is never cancelled:
every enqueued item of the pre-filled, closed queue is attempted exactly
once. -/
def Download (hash : Content → String) (items : List Item) (fs : FS)
    (net : Net) : BatchOut :=
  items.foldl (downloadStep hash net)
    { res := { completed := 0, failed := 0, errors := [] },
      fs := fs, requests := [] }

/-- Each attempted item is classified as exactly one of completed or
failed. -/
theorem downloadStep_count (hash : Content → String) (net : Net)
    (items : List Item) (st : BatchOut) :
    (items.foldl (downloadStep hash net) st).res.completed +
      (items.foldl (downloadStep hash net) st).res.failed =
    st.res.completed + st.res.failed + items.length := by
  induction items generalizing st with
  | nil => simp
  | cons item rest ih =>
    simp only [List.foldl_cons, ih, List.length_cons]
    unfold downloadStep
    rcases h : (downloadItem hash item st.fs net).err with _ | e <;>
      simp [h] <;> omega

/-- C3: for every batch, in the uncancelled run every enqueued item is
attempted exactly once and classified as completed or failed, so
`Result.Completed + Result.Failed` equals the number of items. -/
theorem c3_completed_plus_failed_eq_items (hash : Content → String)
    (items : List Item) (fs : FS) (net : Net) :
    (Download hash items fs net).res.completed +
      (Download hash items fs net).res.failed = items.length := by
  unfold Download
  rw [downloadStep_count]
  simp

/-- C2: an item whose destination already holds content with the declared
hash causes zero network requests and is counted completed. -/
theorem c2_existing_valid_file_skips_network (hash : Content → String)
    (item : Item) (fs : FS) (net : Net) (c : Content)
    (h1 : item.sha1 ≠ "") (h2 : fs item.path = some c)
    (h3 : hash c = item.sha1) :
    downloadItem hash item fs net = { err := none, fs := fs, requests := [] } ∧
    (Download hash [item] fs net).res =
      { completed := 1, failed := 0, errors := [] } ∧
    (Download hash [item] fs net).requests = [] := by
  have hmatch : existingMatches hash item fs = true := by
    unfold existingMatches
    rw [h2]
    simp [h3]
  have hitem : downloadItem hash item fs net =
      { err := none, fs := fs, requests := [] } := by
    unfold downloadItem
    rw [if_pos ⟨h1, hmatch⟩]
  refine ⟨hitem, ?_, ?_⟩ <;>
    simp [Download, downloadStep, hitem]

/-- Concrete digest function for the closed instances below: the claims
depend only on digest (in)equalities, never on real SHA1 values. -/
def demoHash : Content → String :=
  fun c => match c with
  | [] => "hEmpty"
  | n :: _ => "h" ++ toString n

/-- Witness for C2 at a concrete item, filesystem and network. -/
theorem c2_witness :
    (downloadItem demoHash
        { url := "http://u", path := "f", sha1 := "h7", size := 1, priority := 0 }
        (fun p => if p = "f" then some [7] else none)
        (fun _ => none)).requests = [] := by
  have h := c2_existing_valid_file_skips_network demoHash
    { url := "http://u", path := "f", sha1 := "h7", size := 1, priority := 0 }
    (fun p => if p = "f" then some [7] else none)
    (fun _ => none) [7]
    (by decide) (by simp) (by decide)
  rw [h.1]

/-- A path never equals its own temporary-file name. -/
theorem path_ne_tmp (s : String) : s ≠ s ++ ".tmp" := by
  intro h
  have hl := congrArg String.length h
  rw [String.length_append, show (".tmp" : String).length = 4 from rfl] at hl
  omega

/-- C1 counterexample: a destination that already holds stale content
(with a hash other than the declared one, so the pre-download check does
not skip) keeps that file after a hash-mismatch failure: the item is
reported failed, yet a file exists at the final destination path. -/
theorem c1_counterexample_stale_file_survives :
    ((Download demoHash
        [{ url := "http://u", path := "f", sha1 := "sha", size := 1, priority := 0 }]
        (fun p => if p = "f" then some [9] else none)
        (fun _ => some (200, [7]))).res.failed = 1) ∧
    ((Download demoHash
        [{ url := "http://u", path := "f", sha1 := "sha", size := 1, priority := 0 }]
        (fun p => if p = "f" then some [9] else none)
        (fun _ => some (200, [7]))).fs "f" = some [9]) := by
  constructor <;> rfl

/-- C1 (amended): when the downloaded content hashes differently from the
declared expectation, the item is reported failed and the final
destination path is left exactly as it was before the call — only the
temporary file is removed, so if no file existed at the final path
beforehand none exists afterwards. -/
theorem c1_hash_mismatch_fails_and_preserves_destination
    (hash : Content → String) (item : Item) (fs : FS) (net : Net)
    (body : Content)
    (h1 : item.sha1 ≠ "")
    (h2 : ∀ c, fs item.path = some c → hash c ≠ item.sha1)
    (h3 : net item.url = some (200, body))
    (h4 : hash body ≠ item.sha1) :
    (downloadItem hash item fs net).err = some "hash mismatch" ∧
    (downloadItem hash item fs net).fs item.path = fs item.path ∧
    (Download hash [item] fs net).res.failed = 1 ∧
    (Download hash [item] fs net).fs item.path = fs item.path := by
  have hmatch : existingMatches hash item fs = false := by
    unfold existingMatches
    cases hc : fs item.path with
    | none => rfl
    | some c =>
      have := h2 c hc
      simp [this]
  have hitem : downloadItem hash item fs net =
      { err := some "hash mismatch",
        fs := fsSet (fsSet fs (item.path ++ ".tmp") (some body))
                    (item.path ++ ".tmp") none,
        requests := [item.url] } := by
    unfold downloadItem
    rw [if_neg (by simp [hmatch])]
    rw [h3]
    simp only []
    rw [if_neg (by simp)]
    rw [if_pos ⟨h1, h4⟩]
  have hfs : (fsSet (fsSet fs (item.path ++ ".tmp") (some body))
      (item.path ++ ".tmp") none) item.path = fs item.path := by
    unfold fsSet
    rw [if_neg (path_ne_tmp item.path), if_neg (path_ne_tmp item.path)]
  refine ⟨by rw [hitem], by rw [hitem]; exact hfs, ?_, ?_⟩ <;>
    simp [Download, downloadStep, hitem, hfs]

/-- Witness for the amended C1 at a concrete item, filesystem, and
network response. -/
theorem c1_witness :
    (downloadItem demoHash
        { url := "http://u", path := "f", sha1 := "sha", size := 1, priority := 0 }
        (fun _ => none) (fun _ => some (200, [7]))).err = some "hash mismatch" := by
  have h := c1_hash_mismatch_fails_and_preserves_destination demoHash
    { url := "http://u", path := "f", sha1 := "sha", size := 1, priority := 0 }
    (fun _ => none) (fun _ => some (200, [7])) [7]
    (by decide) (by intro c hc; simp at hc) (by rfl) (by decide)
  exact h.1

/-! ## Core data model (internal/core version types) -/

/-- core.OSRule: OS conditions of a rule. -/
structure OSRule where
  name : String
  version : String
  arch : String
deriving DecidableEq

/-- core.Features: feature flags of a rule (never consulted by
libraryApplies). -/
structure Features where
  isDemoUser : Bool
  hasCustomRes : Bool
  hasQuickPlaysup : Bool
  isQuickPlaySingle : Bool
  isQuickPlayMulti : Bool
  isQuickPlayRealms : Bool
deriving DecidableEq

/-- core.Rule: an OS/feature-conditional allow/disallow gate. -/
structure Rule where
  action : String
  os : Option OSRule
  features : Option Features
deriving DecidableEq

/-- core.Artifact: a downloadable file descriptor. -/
structure Artifact where
  path : String
  sha1 : String
  size : Int
  url : String
deriving DecidableEq

/-- core.LibraryDownloads. -/
structure LibraryDownloads where
  artifact : Option Artifact
  classifiers : List (String × Artifact)
deriving DecidableEq

/-- core.Library: a dependency library with optional rules. -/
structure Library where
  name : String
  downloads : Option LibraryDownloads
  rules : List Rule
  natives : List (String × String)
deriving DecidableEq

/-- The fixed GOOS-to-Mojang OS-name mapping of Launcher.libraryApplies
(names outside the map are left unchanged). -/
def mojangOS (goos : String) : String :=
  if goos == "darwin" then "osx"
  else if goos == "linux" then "linux"
  else if goos == "windows" then "windows"
  else goos

/-- The per-rule match test of Launcher.libraryApplies: a rule without an
OS block, or with an empty OS name, always matches; otherwise the OS name
must equal the mapped current platform. -/
def ruleMatches (goos : String) (rule : Rule) : Bool :=
  match rule.os with
  | none => true
  | some osr => if osr.name ≠ "" then osr.name == mojangOS goos else true

/-- Launcher.libraryApplies: no rules means allowed; otherwise start from
disallowed and let each matching rule overwrite the outcome with
(action == "allow"). -/
def libraryApplies (goos : String) (lib : Library) : Bool :=
  if lib.rules.length = 0 then true
  else
    lib.rules.foldl
      (fun allowed rule =>
        if ruleMatches goos rule then rule.action == "allow" else allowed)
      false

/-- A first-match-wins fold over a list equals the value of the first
element passing the filter (or the start value when none does). -/
theorem foldr_firstMatch {α β : Type} (m : α → Bool) (f : α → β) (b : β) :
    ∀ l : List α,
      l.foldr (fun r a => if m r then f r else a) b =
        (((l.filter m).head?.map f).getD b)
  | [] => rfl
  | r :: rest => by
    by_cases hm : m r = true <;>
      simp [List.filter_cons, hm, foldr_firstMatch m f b rest]

/-- A last-match-wins fold over a list equals the value of the last
element passing the filter (or the start value when none does). -/
theorem foldl_lastMatch {α β : Type} (m : α → Bool) (f : α → β) (b : β)
    (l : List α) :
    l.foldl (fun a r => if m r then f r else a) b =
      (((l.filter m).getLast?.map f).getD b) := by
  rw [← List.reverse_reverse l, List.foldl_reverse, List.filter_reverse,
    List.getLast?_reverse]
  exact foldr_firstMatch m f b l.reverse

/-- C4: rule evaluation.  Without rules the library applies; with rules
the outcome is determined by the last matching rule (matching: no OS-name
constraint, or OS name equal to the platform mapped through the fixed
GOOS-to-Mojang table, in particular darwin to osx); and the three
concrete examples of the specification hold on the current platform. -/
theorem c4_rule_evaluation_last_match_wins (goos : String) (lib : Library) :
    (lib.rules = [] → libraryApplies goos lib = true) ∧
    (lib.rules ≠ [] →
      libraryApplies goos lib =
        (((lib.rules.filter (ruleMatches goos)).getLast?.map
            (fun r => r.action == "allow")).getD false)) ∧
    mojangOS "darwin" = "osx" ∧
    libraryApplies "linux" { name := "a", downloads := none, rules := [],
                             natives := [] } = true ∧
    libraryApplies "linux" { name := "b", downloads := none,
                             rules := [{ action := "disallow",
                                         os := some { name := "linux",
                                                      version := "",
                                                      arch := "" },
                                         features := none }],
                             natives := [] } = false ∧
    libraryApplies "linux" { name := "c", downloads := none,
                             rules := [{ action := "allow", os := none,
                                         features := none },
                                       { action := "disallow",
                                         os := some { name := "linux",
                                                      version := "",
                                                      arch := "" },
                                         features := none }],
                             natives := [] } = false := by
  refine ⟨?_, ?_, by decide, by decide, by decide, by decide⟩
  · intro h
    simp [libraryApplies, h]
  · intro h
    unfold libraryApplies
    rw [if_neg (by simpa using h)]
    exact foldl_lastMatch (ruleMatches goos)
      (fun r => r.action == "allow") false lib.rules

/-- Witness for C4 at a concrete platform and library. -/
theorem c4_witness :
    libraryApplies "linux" { name := "w", downloads := none, rules := [],
                             natives := [] } = true := by
  exact (c4_rule_evaluation_last_match_wins "linux"
    { name := "w", downloads := none, rules := [], natives := [] }).1 rfl

/-! ## Java runtime selection (internal/java/detect.go) -/

/-- java.Installation: a detected Java runtime. -/
structure Installation where
  path : String
  version : String
  majorVersion : Int
  is64Bit : Bool
  vendor : String
deriving DecidableEq

/-- An installation meeting the requirement of Detector.FindBest's first
loop: 64-bit and at least the minimum major version. -/
def qualifies (minVersion : Int) (inst : Installation) : Prop :=
  minVersion ≤ inst.majorVersion ∧ inst.is64Bit = true

instance (m : Int) (inst : Installation) : Decidable (qualifies m inst) := by
  unfold qualifies
  infer_instance

/-- First loop body of Detector.FindBest: skip candidates below the
minimum or not 64-bit; keep the candidate with the smallest major
version. -/
def pickMin (minVersion : Int) (best : Option Installation)
    (inst : Installation) : Option Installation :=
  if inst.majorVersion < minVersion then best
  else if inst.is64Bit = false then best
  else
    match best with
    | none => some inst
    | some b =>
      if inst.majorVersion < b.majorVersion then some inst else best

/-- Second (fallback) loop body of Detector.FindBest: among 64-bit
candidates keep the one with the largest major version. -/
def pickMax (best : Option Installation) (inst : Installation) :
    Option Installation :=
  match best with
  | none => if inst.is64Bit then some inst else none
  | some b =>
    if inst.is64Bit = true ∧ b.majorVersion < inst.majorVersion then some inst
    else some b

/-- Detector.FindBest over the list of detected installations: empty
list gives nil; otherwise the first loop selects the smallest qualifying
64-bit candidate, and if none qualifies the second loop falls back to the
largest 64-bit candidate. -/
def FindBest (installations : List Installation) (minVersion : Int) :
    Option Installation :=
  if installations.length = 0 then none
  else
    match installations.foldl (pickMin minVersion) none with
    | some b => some b
    | none => installations.foldl pickMax none

/-- Invariant of the first loop from a qualifying accumulator: the result
stays within the candidates (or the accumulator), never grows in major
version, and stays below every qualifying candidate. -/
theorem pickMin_fold_some (m : Int) :
    ∀ (l : List Installation) (a : Installation),
      ∃ b, l.foldl (pickMin m) (some a) = some b ∧
        (b = a ∨ (b ∈ l ∧ qualifies m b)) ∧
        b.majorVersion ≤ a.majorVersion ∧
        (∀ x ∈ l, qualifies m x → b.majorVersion ≤ x.majorVersion)
  | [], a => ⟨a, rfl, Or.inl rfl, le_refl _, by simp⟩
  | inst :: rest, a => by
    by_cases h1 : inst.majorVersion < m
    · obtain ⟨b, hfold, hmem, hle, hmin⟩ := pickMin_fold_some m rest a
      refine ⟨b, ?_, ?_, hle, ?_⟩
      · simpa [pickMin, h1] using hfold
      · rcases hmem with h | ⟨hm, hq⟩
        · exact Or.inl h
        · exact Or.inr ⟨List.mem_cons_of_mem _ hm, hq⟩
      · intro x hx hq
        rcases List.mem_cons.mp hx with rfl | hx
        · exact absurd hq.1 (by omega)
        · exact hmin x hx hq
    · by_cases h2 : inst.is64Bit = false
      · obtain ⟨b, hfold, hmem, hle, hmin⟩ := pickMin_fold_some m rest a
        refine ⟨b, ?_, ?_, hle, ?_⟩
        · simpa [pickMin, h1, h2] using hfold
        · rcases hmem with h | ⟨hm, hq⟩
          · exact Or.inl h
          · exact Or.inr ⟨List.mem_cons_of_mem _ hm, hq⟩
        · intro x hx hq
          rcases List.mem_cons.mp hx with rfl | hx
          · exact absurd hq.2 (by simp [h2])
          · exact hmin x hx hq
      · have hqinst : qualifies m inst := ⟨by omega, by simpa using h2⟩
        by_cases h3 : inst.majorVersion < a.majorVersion
        · obtain ⟨b, hfold, hmem, hle, hmin⟩ := pickMin_fold_some m rest inst
          refine ⟨b, ?_, ?_, by omega, ?_⟩
          · simpa [pickMin, h1, h2, h3] using hfold
          · rcases hmem with rfl | ⟨hm, hq⟩
            · exact Or.inr ⟨List.mem_cons_self _ _, hqinst⟩
            · exact Or.inr ⟨List.mem_cons_of_mem _ hm, hq⟩
          · intro x hx hq
            rcases List.mem_cons.mp hx with rfl | hx
            · exact hle
            · exact hmin x hx hq
        · obtain ⟨b, hfold, hmem, hle, hmin⟩ := pickMin_fold_some m rest a
          refine ⟨b, ?_, ?_, hle, ?_⟩
          · simpa [pickMin, h1, h2, h3] using hfold
          · rcases hmem with h | ⟨hm, hq⟩
            · exact Or.inl h
            · exact Or.inr ⟨List.mem_cons_of_mem _ hm, hq⟩
          · intro x hx hq
            rcases List.mem_cons.mp hx with rfl | hx
            · omega
            · exact hmin x hx hq

/-- The first loop of Detector.FindBest, started empty, either finds no
qualifying candidate at all or returns a qualifying candidate of minimal
major version. -/
theorem pickMin_fold_none (m : Int) :
    ∀ l : List Installation,
      (l.foldl (pickMin m) none = none ∧ ∀ x ∈ l, ¬ qualifies m x) ∨
      (∃ b, l.foldl (pickMin m) none = some b ∧ b ∈ l ∧ qualifies m b ∧
        ∀ x ∈ l, qualifies m x → b.majorVersion ≤ x.majorVersion)
  | [] => Or.inl ⟨rfl, by simp⟩
  | inst :: rest => by
    by_cases h1 : inst.majorVersion < m
    · rcases pickMin_fold_none m rest with ⟨hfold, hall⟩ | ⟨b, hfold, hb, hq, hmin⟩
      · refine Or.inl ⟨by simpa [pickMin, h1] using hfold, ?_⟩
        intro x hx
        rcases List.mem_cons.mp hx with rfl | hx
        · exact fun hq => absurd hq.1 (by omega)
        · exact hall x hx
      · refine Or.inr ⟨b, by simpa [pickMin, h1] using hfold,
          List.mem_cons_of_mem _ hb, hq, ?_⟩
        intro x hx hqx
        rcases List.mem_cons.mp hx with rfl | hx
        · exact absurd hqx.1 (by omega)
        · exact hmin x hx hqx
    · by_cases h2 : inst.is64Bit = false
      · rcases pickMin_fold_none m rest with ⟨hfold, hall⟩ | ⟨b, hfold, hb, hq, hmin⟩
        · refine Or.inl ⟨by simpa [pickMin, h1, h2] using hfold, ?_⟩
          intro x hx
          rcases List.mem_cons.mp hx with rfl | hx
          · exact fun hq => absurd hq.2 (by simp [h2])
          · exact hall x hx
        · refine Or.inr ⟨b, by simpa [pickMin, h1, h2] using hfold,
            List.mem_cons_of_mem _ hb, hq, ?_⟩
          intro x hx hqx
          rcases List.mem_cons.mp hx with rfl | hx
          · exact absurd hqx.2 (by simp [h2])
          · exact hmin x hx hqx
      · have hqinst : qualifies m inst := ⟨by omega, by simpa using h2⟩
        obtain ⟨b, hfold, hmem, hle, hmin⟩ := pickMin_fold_some m rest inst
        refine Or.inr ⟨b, by simpa [pickMin, h1, h2] using hfold, ?_, ?_, ?_⟩
        · rcases hmem with rfl | ⟨hm, _⟩
          · exact List.mem_cons_self _ _
          · exact List.mem_cons_of_mem _ hm
        · rcases hmem with rfl | ⟨_, hq⟩
          · exact hqinst
          · exact hq
        · intro x hx hqx
          rcases List.mem_cons.mp hx with rfl | hx
          · exact hle
          · exact hmin x hx hqx

/-- Invariant of the fallback loop from a 64-bit accumulator: the result
is 64-bit, never shrinks in major version, and dominates every 64-bit
candidate. -/
theorem pickMax_fold_some :
    ∀ (l : List Installation) (a : Installation),
      ∃ b, l.foldl pickMax (some a) = some b ∧
        (b = a ∨ (b ∈ l ∧ b.is64Bit = true)) ∧
        a.majorVersion ≤ b.majorVersion ∧
        (∀ x ∈ l, x.is64Bit = true → x.majorVersion ≤ b.majorVersion)
  | [], a => ⟨a, rfl, Or.inl rfl, le_refl _, by simp⟩
  | inst :: rest, a => by
    by_cases h1 : inst.is64Bit = true ∧ a.majorVersion < inst.majorVersion
    · obtain ⟨b, hfold, hmem, hle, hmax⟩ := pickMax_fold_some rest inst
      refine ⟨b, ?_, ?_, by omega, ?_⟩
      · simpa [pickMax, h1] using hfold
      · rcases hmem with rfl | ⟨hm, hq⟩
        · exact Or.inr ⟨List.mem_cons_self _ _, h1.1⟩
        · exact Or.inr ⟨List.mem_cons_of_mem _ hm, hq⟩
      · intro x hx hqx
        rcases List.mem_cons.mp hx with rfl | hx
        · exact hle
        · exact hmax x hx hqx
    · obtain ⟨b, hfold, hmem, hle, hmax⟩ := pickMax_fold_some rest a
      refine ⟨b, ?_, ?_, hle, ?_⟩
      · simpa [pickMax, h1] using hfold
      · rcases hmem with h | ⟨hm, hq⟩
        · exact Or.inl h
        · exact Or.inr ⟨List.mem_cons_of_mem _ hm, hq⟩
      · intro x hx hqx
        rcases List.mem_cons.mp hx with rfl | hx
        · rcases Decidable.not_and_iff_or_not.mp h1 with h | h
          · exact absurd hqx h
          · omega
        · exact hmax x hx hqx

/-- The fallback loop of Detector.FindBest, started empty, either finds
no 64-bit candidate at all or returns a 64-bit candidate of maximal
major version. -/
theorem pickMax_fold_none :
    ∀ l : List Installation,
      (l.foldl pickMax none = none ∧ ∀ x ∈ l, x.is64Bit = false) ∨
      (∃ b, l.foldl pickMax none = some b ∧ b ∈ l ∧ b.is64Bit = true ∧
        ∀ x ∈ l, x.is64Bit = true → x.majorVersion ≤ b.majorVersion)
  | [] => Or.inl ⟨rfl, by simp⟩
  | inst :: rest => by
    by_cases h1 : inst.is64Bit = true
    · obtain ⟨b, hfold, hmem, hle, hmax⟩ := pickMax_fold_some rest inst
      refine Or.inr ⟨b, by simpa [pickMax, h1] using hfold, ?_, ?_, ?_⟩
      · rcases hmem with rfl | ⟨hm, _⟩
        · exact List.mem_cons_self _ _
        · exact List.mem_cons_of_mem _ hm
      · rcases hmem with rfl | ⟨_, hq⟩
        · exact h1
        · exact hq
      · intro x hx hqx
        rcases List.mem_cons.mp hx with rfl | hx
        · exact hle
        · exact hmax x hx hqx
    · rcases pickMax_fold_none rest with ⟨hfold, hall⟩ | ⟨b, hfold, hb, hq, hmax⟩
      · refine Or.inl ⟨by simpa [pickMax, h1] using hfold, ?_⟩
        intro x hx
        rcases List.mem_cons.mp hx with rfl | hx
        · simpa using h1
        · exact hall x hx
      · refine Or.inr ⟨b, by simpa [pickMax, h1] using hfold,
          List.mem_cons_of_mem _ hb, hq, ?_⟩
        intro x hx hqx
        rcases List.mem_cons.mp hx with rfl | hx
        · exact absurd hqx h1
        · exact hmax x hx hqx

/-- C6: FindBest returns, among the 64-bit installations at or above the
minimum major version, one with the smallest qualifying major version;
when none qualifies it falls back to a 64-bit installation of maximal
major version; and on {11/64-bit, 17/64-bit, 8/32-bit} with minimum 17 it
returns the 17/64-bit installation. -/
theorem c6_findbest_closest_match (insts : List Installation) (m : Int) :
    ((∃ q ∈ insts, qualifies m q) →
      ∃ b, FindBest insts m = some b ∧ b ∈ insts ∧ qualifies m b ∧
        ∀ x ∈ insts, qualifies m x → b.majorVersion ≤ x.majorVersion) ∧
    ((∀ q ∈ insts, ¬ qualifies m q) → (∃ q ∈ insts, q.is64Bit = true) →
      ∃ b, FindBest insts m = some b ∧ b ∈ insts ∧ b.is64Bit = true ∧
        ∀ x ∈ insts, x.is64Bit = true → x.majorVersion ≤ b.majorVersion) ∧
    FindBest
      [{ path := "j11", version := "11.0.1", majorVersion := 11,
         is64Bit := true, vendor := "OpenJDK" },
       { path := "j17", version := "17.0.9", majorVersion := 17,
         is64Bit := true, vendor := "OpenJDK" },
       { path := "j8", version := "1.8.0_391", majorVersion := 8,
         is64Bit := false, vendor := "Oracle" }] 17 =
      some { path := "j17", version := "17.0.9", majorVersion := 17,
             is64Bit := true, vendor := "OpenJDK" } := by
  refine ⟨?_, ?_, by decide⟩
  · rintro ⟨q, hq, hQ⟩
    have hne : insts.length ≠ 0 := by
      simpa using List.ne_nil_of_mem hq
    rcases pickMin_fold_none m insts with ⟨_, hall⟩ | ⟨b, hfold, hb, hbq, hmin⟩
    · exact absurd hQ (hall q hq)
    · refine ⟨b, ?_, hb, hbq, hmin⟩
      unfold FindBest
      rw [if_neg hne, hfold]
  · intro hnone h64
    have hfoldnone : insts.foldl (pickMin m) none = none := by
      rcases pickMin_fold_none m insts with ⟨hfold, _⟩ | ⟨b, _, hb, hbq, _⟩
      · exact hfold
      · exact absurd hbq (hnone b hb)
    obtain ⟨q, hq, hq64⟩ := h64
    have hne : insts.length ≠ 0 := by
      simpa using List.ne_nil_of_mem hq
    rcases pickMax_fold_none insts with ⟨_, hall⟩ | ⟨b, hfold, hb, hb64, hmax⟩
    · exact absurd hq64 (by simp [hall q hq])
    · refine ⟨b, ?_, hb, hb64, hmax⟩
      unfold FindBest
      rw [if_neg hne, hfoldnone, hfold]

/-- Witness for C6: the closest-match clause applied to the concrete
installation list of the specification example. -/
theorem c6_witness :
    ∃ b, FindBest
      [{ path := "j11", version := "11.0.1", majorVersion := 11,
         is64Bit := true, vendor := "OpenJDK" },
       { path := "j17", version := "17.0.9", majorVersion := 17,
         is64Bit := true, vendor := "OpenJDK" },
       { path := "j8", version := "1.8.0_391", majorVersion := 8,
         is64Bit := false, vendor := "Oracle" }] 17 = some b ∧
      qualifies 17 b := by
  obtain ⟨b, hfb, _, hq, _⟩ := (c6_findbest_closest_match
    [{ path := "j11", version := "11.0.1", majorVersion := 11,
       is64Bit := true, vendor := "OpenJDK" },
     { path := "j17", version := "17.0.9", majorVersion := 17,
       is64Bit := true, vendor := "OpenJDK" },
     { path := "j8", version := "1.8.0_391", majorVersion := 8,
       is64Bit := false, vendor := "Oracle" }] 17).1
    ⟨{ path := "j17", version := "17.0.9", majorVersion := 17,
       is64Bit := true, vendor := "OpenJDK" }, by simp, by decide⟩
  exact ⟨b, hfb, hq⟩

/-! ## Argument substitution (Launcher.replaceVars / buildGameArguments) -/

/-- Character-level engine of strings.ReplaceAll: replace the leftmost
occurrence of `pat`, continue after the replacement.  The fuel argument
(instantiated with the string length, an upper bound on the number of
steps for a nonempty pattern) only makes the recursion structural. -/
def lrGo (pat rep : List Char) : Nat → List Char → List Char
  | 0, s => s
  | _ + 1, [] => []
  | fuel + 1, c :: rest =>
    if pat.isPrefixOf (c :: rest) then
      rep ++ lrGo pat rep fuel ((c :: rest).drop pat.length)
    else c :: lrGo pat rep fuel rest

/-- strings.ReplaceAll for a nonempty pattern (the placeholder keys used
by the launcher are never empty, so the empty-pattern insertion behavior
of Go is not exercised and is modelled as the identity). -/
def replaceAll (pat rep s : String) : String :=
  if pat = "" then s else ⟨lrGo pat.data rep.data s.data.length s.data⟩

/-- Launcher.replaceVars: apply strings.ReplaceAll for every (key, value)
pair of the replacement map.  Go iterates the map in an unspecified
order, so the map is modelled as a list and the order claims quantify
over its permutations. -/
def replaceVars (replacements : List (String × String)) (s : String) :
    String :=
  replacements.foldl (fun result kv => replaceAll kv.1 kv.2 result) s

/-- The replacement map of Launcher.buildGameArguments, in source textual
order, with the computed values passed in as parameters. -/
def gameReplacements (playerName versionId gameDir assetsRoot assetIndexId
    uuid accessToken userType versionType : String) :
    List (String × String) :=
  [("${auth_player_name}", playerName),
   ("${version_name}", versionId),
   ("${game_directory}", gameDir),
   ("${assets_root}", assetsRoot),
   ("${assets_index_name}", assetIndexId),
   ("${auth_uuid}", uuid),
   ("${auth_access_token}", accessToken),
   ("${user_type}", userType),
   ("${version_type}", versionType),
   ("${user_properties}", "\x7b\x7d")]

/-- Folding replacements that each fix a string leaves it unchanged. -/
theorem replaceVars_fixed :
    ∀ (l : List (String × String)) (s : String),
      (∀ q ∈ l, replaceAll q.1 q.2 s = s) → replaceVars l s = s
  | [], _, _ => rfl
  | kv :: rest, s, h => by
    have h0 : replaceAll kv.1 kv.2 s = s := h kv (List.mem_cons_self _ _)
    unfold replaceVars
    rw [List.foldl_cons, h0]
    exact replaceVars_fixed rest s (fun q hq => h q (List.mem_cons_of_mem _ hq))

/-- C5 counterexample: when a replacement value itself contains a
placeholder token (here the player name is the literal string
"${version_type}"), two iteration orders of the very replacement map
built by buildGameArguments produce different outputs, and substitution
is not idempotent; so the claimed order-independence and idempotence are
false. -/
theorem c5_counterexample_order_dependent :
    (List.Perm
      [("${version_type}", "release"),
       ("${version_name}", "1.21.4"),
       ("${game_directory}", "/game"),
       ("${assets_root}", "/assets"),
       ("${assets_index_name}", "1.21"),
       ("${auth_uuid}", "u"),
       ("${auth_access_token}", "t"),
       ("${user_type}", "msa"),
       ("${user_properties}", "\x7b\x7d"),
       ("${auth_player_name}", "${version_type}")]
      (gameReplacements "${version_type}" "1.21.4" "/game" "/assets" "1.21"
        "u" "t" "msa" "release")) ∧
    replaceVars
      (gameReplacements "${version_type}" "1.21.4" "/game" "/assets" "1.21"
        "u" "t" "msa" "release")
      "--username ${auth_player_name}" ≠
    replaceVars
      [("${version_type}", "release"),
       ("${version_name}", "1.21.4"),
       ("${game_directory}", "/game"),
       ("${assets_root}", "/assets"),
       ("${assets_index_name}", "1.21"),
       ("${auth_uuid}", "u"),
       ("${auth_access_token}", "t"),
       ("${user_type}", "msa"),
       ("${user_properties}", "\x7b\x7d"),
       ("${auth_player_name}", "${version_type}")]
      "--username ${auth_player_name}" ∧
    replaceVars
      [("${version_type}", "release"),
       ("${version_name}", "1.21.4"),
       ("${game_directory}", "/game"),
       ("${assets_root}", "/assets"),
       ("${assets_index_name}", "1.21"),
       ("${auth_uuid}", "u"),
       ("${auth_access_token}", "t"),
       ("${user_type}", "msa"),
       ("${user_properties}", "\x7b\x7d"),
       ("${auth_player_name}", "${version_type}")]
      (replaceVars
        [("${version_type}", "release"),
         ("${version_name}", "1.21.4"),
         ("${game_directory}", "/game"),
         ("${assets_root}", "/assets"),
         ("${assets_index_name}", "1.21"),
         ("${auth_uuid}", "u"),
         ("${auth_access_token}", "t"),
         ("${user_type}", "msa"),
         ("${user_properties}", "\x7b\x7d"),
         ("${auth_player_name}", "${version_type}")]
        "--username ${auth_player_name}") ≠
    replaceVars
      [("${version_type}", "release"),
       ("${version_name}", "1.21.4"),
       ("${game_directory}", "/game"),
       ("${assets_root}", "/assets"),
       ("${assets_index_name}", "1.21"),
       ("${auth_uuid}", "u"),
       ("${auth_access_token}", "t"),
       ("${user_type}", "msa"),
       ("${user_properties}", "\x7b\x7d"),
       ("${auth_player_name}", "${version_type}")]
      "--username ${auth_player_name}" := by
  refine ⟨by decide, by decide, by decide⟩

/-- The replacement map of the specification example: player name Alice,
every value free of placeholder tokens. -/
def aliceMap : List (String × String) :=
  gameReplacements "Alice" "1.21.4" "/i/.minecraft" "/assets" "1.21"
    "00000000-0000-0000-0000-000000000000" "0" "msa" "release"

/-- C5 (amended): substitution replaces the fixed placeholder tokens by
exact textual match; in general it is order-dependent and non-idempotent
when a replacement value contains a placeholder token, but for the
standard token-free map it is order-independent on the example:
substituting "--username ${auth_player_name}" with player name Alice
yields "--username Alice" under every iteration order of the map, and
re-substitution of that output is a no-op under every iteration order. -/
theorem c5_substitution_example_order_independent
    (l : List (String × String)) (hl : l.Perm aliceMap) :
    replaceVars l "--username ${auth_player_name}" = "--username Alice" ∧
    replaceVars l "--username Alice" = "--username Alice" := by
  have f2 : ∀ q ∈ aliceMap,
      replaceAll q.1 q.2 "--username Alice" = "--username Alice" := by decide
  have hsecond : replaceVars l "--username Alice" = "--username Alice" :=
    replaceVars_fixed l _ (fun q hq => f2 q (hl.subset hq))
  have hp : ("${auth_player_name}", "Alice") ∈ l :=
    hl.mem_iff.mpr (List.mem_cons_self _ _)
  obtain ⟨l1, l2, rfl⟩ := List.append_of_mem hp
  have hrest : List.Perm (l1 ++ l2) aliceMap.tail :=
    (List.perm_middle.symm.trans hl).cons_inv
  have f1 : ∀ q ∈ aliceMap.tail,
      replaceAll q.1 q.2 "--username ${auth_player_name}" =
        "--username ${auth_player_name}" := by decide
  have f3 :
      replaceAll "${auth_player_name}" "Alice"
        "--username ${auth_player_name}" = "--username Alice" := by decide
  refine ⟨?_, hsecond⟩
  have h1 : replaceVars (l1 ++ ("${auth_player_name}", "Alice") :: l2)
      "--username ${auth_player_name}" =
      replaceVars (("${auth_player_name}", "Alice") :: l2)
        (replaceVars l1 "--username ${auth_player_name}") := by
    unfold replaceVars
    rw [List.foldl_append]
  have h2 : replaceVars l1 "--username ${auth_player_name}" =
      "--username ${auth_player_name}" :=
    replaceVars_fixed l1 _
      (fun q hq => f1 q (hrest.subset (List.mem_append_left _ hq)))
  have h3 : replaceVars (("${auth_player_name}", "Alice") :: l2)
      "--username ${auth_player_name}" = replaceVars l2 "--username Alice" := by
    unfold replaceVars
    rw [List.foldl_cons]
    simp only [f3]
  have h4 : replaceVars l2 "--username Alice" = "--username Alice" :=
    replaceVars_fixed l2 _
      (fun q hq => f2 q
        (List.mem_of_mem_tail (hrest.subset (List.mem_append_right _ hq))))
  rw [h1, h2, h3, h4]

/-- Witness for the amended C5 at the source iteration order. -/
theorem c5_witness :
    replaceVars aliceMap "--username ${auth_player_name}" =
      "--username Alice" :=
  (c5_substitution_example_order_independent aliceMap (List.Perm.refl _)).1

/-! ## Launch pipeline driver (Launcher.Launch) -/

/-- launch.Status as far as the pipeline claims observe it: step name,
message, optional error and completion flag (the float progress fraction
and log lines are not consulted by any claim and are not modelled). -/
structure LStatus where
  step : String
  message : String
  error : Option String
  isComplete : Bool
deriving DecidableEq

/-- The Status announcing a step before it runs. -/
def announceStatus (name : String) : LStatus :=
  { step := name, message := name ++ "...", error := none,
    isComplete := false }

/-- The terminal Status pushed when a step fails. -/
def terminalStatus (name e : String) : LStatus :=
  { step := name, message := e, error := some e, isComplete := false }

/-- The Status pushed after the whole pipeline succeeds. -/
def completeStatus : LStatus :=
  { step := "Complete", message := "Game closed.", error := none,
    isComplete := true }

/-- Observable outcome of one Launcher.Launch run: the sequence of
Status emissions, the returned error, the names of the steps whose
function was invoked, and whether the instance cached-state flag and
cache timestamp were updated. -/
structure LaunchOutcome where
  statuses : List LStatus
  error : Option String
  ranSteps : List String
  instanceMarked : Bool
deriving DecidableEq

/-- The step loop of Launcher.Launch, each step abstracted by its display
name and the result of its function: announce the step, run it, and on
error push a terminal Status and return the error wrapped with the step
name; after a full pass mark the instance fully downloaded and stamp the
cache timestamp (when an instance and an UpdateInstance callback are
present, abstracted by hasCallbacks) and push the Complete status. -/
def launchLoop (hasCallbacks : Bool) :
    List (String × Option String) → LaunchOutcome
  | [] =>
    { statuses := [completeStatus], error := none, ranSteps := [],
      instanceMarked := hasCallbacks }
  | (name, outcome) :: rest =>
    match outcome with
    | some e =>
      { statuses := [announceStatus name, terminalStatus name e],
        error := some (name ++ ": " ++ e),
        ranSteps := [name], instanceMarked := false }
    | none =>
      let r := launchLoop hasCallbacks rest
      { statuses := announceStatus name :: r.statuses,
        error := r.error, ranSteps := name :: r.ranSteps,
        instanceMarked := r.instanceMarked }

/-- Launcher.Launch over its fixed, ordered step table, with each step
function abstracted by its outcome. -/
def Launch (o1 o2 o3 o4 o5 : Option String) (hasCallbacks : Bool) :
    LaunchOutcome :=
  launchLoop hasCallbacks
    [("Checking Java", o1), ("Downloading libraries", o2),
     ("Downloading assets", o3), ("Preparing game", o4),
     ("Launching", o5)]

/-- C7: when the first failing step of the fixed sequence fails, a
terminal Status carrying the error is emitted, no later step runs, the
returned error wraps the failing step's display name with the cause, and
the cached-state flag and cache timestamp are not updated. -/
theorem c7_step_failure_stops_pipeline (o1 o2 o3 o4 o5 : Option String)
    (hasCallbacks : Bool) :
    (∀ e, o1 = some e →
      Launch o1 o2 o3 o4 o5 hasCallbacks =
        { statuses := [announceStatus "Checking Java",
                       terminalStatus "Checking Java" e],
          error := some ("Checking Java" ++ ": " ++ e),
          ranSteps := ["Checking Java"], instanceMarked := false }) ∧
    (∀ e, o1 = none → o2 = some e →
      Launch o1 o2 o3 o4 o5 hasCallbacks =
        { statuses := [announceStatus "Checking Java",
                       announceStatus "Downloading libraries",
                       terminalStatus "Downloading libraries" e],
          error := some ("Downloading libraries" ++ ": " ++ e),
          ranSteps := ["Checking Java", "Downloading libraries"],
          instanceMarked := false }) ∧
    (∀ e, o1 = none → o2 = none → o3 = some e →
      Launch o1 o2 o3 o4 o5 hasCallbacks =
        { statuses := [announceStatus "Checking Java",
                       announceStatus "Downloading libraries",
                       announceStatus "Downloading assets",
                       terminalStatus "Downloading assets" e],
          error := some ("Downloading assets" ++ ": " ++ e),
          ranSteps := ["Checking Java", "Downloading libraries",
                       "Downloading assets"],
          instanceMarked := false }) ∧
    (∀ e, o1 = none → o2 = none → o3 = none → o4 = some e →
      Launch o1 o2 o3 o4 o5 hasCallbacks =
        { statuses := [announceStatus "Checking Java",
                       announceStatus "Downloading libraries",
                       announceStatus "Downloading assets",
                       announceStatus "Preparing game",
                       terminalStatus "Preparing game" e],
          error := some ("Preparing game" ++ ": " ++ e),
          ranSteps := ["Checking Java", "Downloading libraries",
                       "Downloading assets", "Preparing game"],
          instanceMarked := false }) ∧
    (∀ e, o1 = none → o2 = none → o3 = none → o4 = none → o5 = some e →
      Launch o1 o2 o3 o4 o5 hasCallbacks =
        { statuses := [announceStatus "Checking Java",
                       announceStatus "Downloading libraries",
                       announceStatus "Downloading assets",
                       announceStatus "Preparing game",
                       announceStatus "Launching",
                       terminalStatus "Launching" e],
          error := some ("Launching" ++ ": " ++ e),
          ranSteps := ["Checking Java", "Downloading libraries",
                       "Downloading assets", "Preparing game", "Launching"],
          instanceMarked := false }) := by
  refine ⟨?_, ?_, ?_, ?_, ?_⟩
  · rintro e rfl
    rfl
  · rintro e rfl rfl
    rfl
  · rintro e rfl rfl rfl
    rfl
  · rintro e rfl rfl rfl rfl
    rfl
  · rintro e rfl rfl rfl rfl rfl
    rfl

/-- Witness for C7: the second step failing with a concrete error. -/
theorem c7_witness :
    (Launch none (some "2 items failed to download") none none none
        true).error =
      some ("Downloading libraries" ++ ": " ++
        "2 items failed to download") := by
  rw [(c7_step_failure_stops_pipeline none
    (some "2 items failed to download") none none none true).2.1
    "2 items failed to download" rfl rfl]

/-! ## Library and asset download steps (Launcher.downloadLibraries,
Launcher.downloadAssets) -/

/-- core.Instance, restricted to the fields the launch pipeline reads
(store/UI fields such as timestamps and loader settings are elided). -/
structure Instance where
  id : String
  name : String
  path : String
  version : String
  javaPath : String
  jvmArgs : List String
  isFullyDownloaded : Bool
deriving DecidableEq

/-- config.Config, restricted to the fields the launch pipeline reads. -/
structure Config where
  dataDir : String
  librariesDir : String
  assetsDir : String
  jvmArgs : List String
deriving DecidableEq

/-- core.AssetIndexRef. -/
structure AssetIndexRef where
  id : String
  sha1 : String
  size : Int
  totalSize : Int
  url : String
deriving DecidableEq

/-- core.Downloads (client/server artifacts). -/
structure Downloads where
  client : Option Artifact
  clientMappings : Option Artifact
  server : Option Artifact
  serverMappings : Option Artifact
deriving DecidableEq

/-- core.JavaVersionReq. -/
structure JavaVersionReq where
  component : String
  majorVersion : Int
deriving DecidableEq

/-- core.VersionDetails, restricted to the fields the download steps
read (`vtype` models the source field Type; the untyped modern argument
array and the timestamps are elided — game-argument substitution is
modelled separately by gameReplacements/replaceVars). -/
structure VersionDetails where
  id : String
  vtype : String
  mainClass : String
  minecraftArguments : String
  libraries : List Library
  assetIndex : AssetIndexRef
  assets : String
  downloads : Downloads
  javaVersion : JavaVersionReq
deriving DecidableEq

/-- filepath.Join for the clean path components this code joins:
interpose the separator. -/
def joinPath (a b : String) : String := a ++ "/" ++ b

/-- The version-scoped conventional relative path of the client jar. -/
def clientRelPath (versionId : String) : String :=
  "com/mojang/minecraft/" ++ versionId ++ "/minecraft-" ++ versionId ++
    "-client.jar"

/-- The item list built by Launcher.downloadLibraries: one item per
rule-permitted library with a fetchable artifact, rooted at the shared
libraries directory, plus the client jar under its conventional path. -/
def libraryItems (goos : String) (cfg : Config) (vi : VersionDetails) :
    List Item :=
  (vi.libraries.filterMap (fun lib =>
    if libraryApplies goos lib = false then none
    else
      match lib.downloads with
      | none => none
      | some d =>
        match d.artifact with
        | none => none
        | some a =>
          some { url := a.url, path := joinPath cfg.librariesDir a.path,
                 sha1 := a.sha1, size := a.size, priority := 0 })) ++
  (match vi.downloads.client with
   | none => []
   | some client =>
     [{ url := client.url,
        path := joinPath cfg.librariesDir (clientRelPath vi.id),
        sha1 := client.sha1, size := client.size, priority := 0 }])

/-- One entry of the parsed asset index: content hash and size. -/
structure AssetObject where
  hash : String
  size : Int
deriving DecidableEq

/-- The Go slice expression obj.Hash[:2]: defined only when the hash has
at least two bytes, otherwise the program panics. -/
def sliceTo2 (s : String) : Option String :=
  if 2 ≤ s.length then some (String.mk (s.data.take 2)) else none

/-- The item list built by Launcher.downloadAssets from the parsed asset
index entries: the first two characters of the hash shard both the remote
URL and the local path.  `none` models the out-of-bounds panic of
obj.Hash[:2] on a hash shorter than two bytes. -/
def assetItems (cfg : Config) :
    List (String × AssetObject) → Option (List Item)
  | [] => some []
  | (_, obj) :: rest =>
    match sliceTo2 obj.hash with
    | none => none
    | some pre2 =>
      match assetItems cfg rest with
      | none => none
      | some items =>
        some ({ url := "https://resources.download.minecraft.net/" ++ pre2 ++
                  "/" ++ obj.hash,
                path := joinPath (joinPath (joinPath cfg.assetsDir "objects")
                  pre2) obj.hash,
                sha1 := obj.hash, size := obj.size, priority := 0 } :: items)

/-- Launcher.performDownload: empty batches are no-ops; otherwise run the
batch and surface any failures as a single step-level error stating the
failure count. -/
def performDownload (hash : Content → String) (items : List Item)
    (fs : FS) (net : Net) : Option String × FS × List String :=
  if items.length = 0 then (none, fs, [])
  else
    let out := Download hash items fs net
    if 0 < out.res.failed then
      (some (toString out.res.failed ++ " items failed to download"),
       out.fs, out.requests)
    else (none, out.fs, out.requests)

/-- Whether the optional instance carries a true cached-state flag
(the skip test of both download steps). -/
def instFullyDownloaded (inst : Option Instance) : Bool :=
  match inst with
  | some i => i.isFullyDownloaded
  | none => false

/-- Launcher.downloadLibraries: cancellation check, then the nil-version
and cached-state short circuits, then build the item list and download
it.  Result: step error, filesystem after the step, URLs requested. -/
def downloadLibraries (hash : Content → String) (goos : String)
    (cancelled : Bool) (inst : Option Instance)
    (vi : Option VersionDetails) (cfg : Config) (fs : FS) (net : Net) :
    Option String × FS × List String :=
  if cancelled = true then (some "context canceled", fs, [])
  else
    match vi with
    | none => (none, fs, [])
    | some v =>
      if instFullyDownloaded inst = true then (none, fs, [])
      else performDownload hash (libraryItems goos cfg v) fs net

/-- The on-disk location of the asset index. -/
def indexPath (cfg : Config) (v : VersionDetails) : String :=
  joinPath (joinPath cfg.assetsDir "indexes") (v.assetIndex.id ++ ".json")

/-- Launcher.downloadAssets: cancellation check, nil-version and
cached-state short circuits; fetch the asset index when absent (the Go
error return of Manager.Download is always nil, so only the subsequent
read detects a failed fetch), read and parse it (json.Unmarshal is
abstracted by the `parse` parameter), build the asset items, and download
them.  The outer `none` models the panic of obj.Hash[:2]. -/
def downloadAssets (hash : Content → String) (cancelled : Bool)
    (inst : Option Instance) (vi : Option VersionDetails) (cfg : Config)
    (fs : FS) (net : Net)
    (parse : Content → Option (List (String × AssetObject))) :
    Option (Option String × FS × List String) :=
  if cancelled = true then some (some "context canceled", fs, [])
  else
    match vi with
    | none => some (none, fs, [])
    | some v =>
      if instFullyDownloaded inst = true then some (none, fs, [])
      else
        let ipath := indexPath cfg v
        let fetched :=
          if fs ipath = none then
            Download hash
              [{ url := v.assetIndex.url, path := ipath,
                 sha1 := v.assetIndex.sha1, size := v.assetIndex.size,
                 priority := 0 }] fs net
          else
            { res := { completed := 0, failed := 0, errors := [] },
              fs := fs, requests := [] }
        match fetched.fs ipath with
        | none => some (some "reading asset index", fetched.fs,
            fetched.requests)
        | some content =>
          match parse content with
          | none => some (some "parsing asset index", fetched.fs,
              fetched.requests)
          | some objects =>
            match assetItems cfg objects with
            | none => none
            | some items =>
              let r := performDownload hash items fetched.fs net
              some (r.1, r.2.1, fetched.requests ++ r.2.2)

/-- C8: on an instance whose cached-state flag is already true, and
absent cancellation, the library and asset steps return no error, touch
no file and issue no network request, whatever the version metadata,
filesystem, network reachability and index contents are. -/
theorem c8_fully_downloaded_skips_steps (hash : Content → String)
    (goos : String) (i : Instance) (vi : Option VersionDetails)
    (cfg : Config) (fs : FS) (net : Net)
    (parse : Content → Option (List (String × AssetObject)))
    (hflag : i.isFullyDownloaded = true) :
    downloadLibraries hash goos false (some i) vi cfg fs net =
      (none, fs, []) ∧
    downloadAssets hash false (some i) vi cfg fs net parse =
      some (none, fs, []) := by
  constructor
  · unfold downloadLibraries
    rw [if_neg (by simp)]
    cases vi with
    | none => rfl
    | some v =>
      simp only [instFullyDownloaded, hflag, if_pos]
  · unfold downloadAssets
    rw [if_neg (by simp)]
    cases vi with
    | none => rfl
    | some v =>
      simp only [instFullyDownloaded, hflag, if_pos]

/-- Witness for C8 at a concrete instance, version and unreachable
network. -/
theorem c8_witness :
    downloadLibraries demoHash "linux" false
      (some { id := "i", name := "n", path := "/i", version := "1.21.4",
              javaPath := "", jvmArgs := [], isFullyDownloaded := true })
      none
      { dataDir := "", librariesDir := "/lib", assetsDir := "/as",
        jvmArgs := [] }
      (fun _ => none) (fun _ => none) =
      (none, (fun _ => none : FS), []) :=
  (c8_fully_downloaded_skips_steps demoHash "linux"
    { id := "i", name := "n", path := "/i", version := "1.21.4",
      javaPath := "", jvmArgs := [], isFullyDownloaded := true }
    none
    { dataDir := "", librariesDir := "/lib", assetsDir := "/as",
      jvmArgs := [] }
    (fun _ => none) (fun _ => none) (fun _ => none) rfl).1

/-! ## Destination-path distinctness of the constructed batches (C9) and
totality of the asset item construction (C10) -/

/-- Appending to a fixed string on the right of joinPath is injective. -/
theorem joinPath_inj_right (a : String) {p q : String}
    (h : joinPath a p = joinPath a q) : p = q := by
  have hd := congrArg String.data h
  simp only [joinPath, String.data_append, List.append_assoc] at hd
  exact String.ext (List.append_cancel_left (List.append_cancel_left hd))

/-- The relative destination paths selected by Launcher.downloadLibraries:
the artifact paths of the rule-permitted libraries with a fetchable
artifact, then the conventional client-jar path. -/
def libraryRelPaths (goos : String) (vi : VersionDetails) : List String :=
  (vi.libraries.filterMap (fun lib =>
    if libraryApplies goos lib = false then none
    else
      match lib.downloads with
      | none => none
      | some d =>
        match d.artifact with
        | none => none
        | some a => some a.path)) ++
  (match vi.downloads.client with
   | none => []
   | some _ => [clientRelPath vi.id])

/-- The destination paths of the library batch are the relative paths
joined onto the shared libraries directory. -/
theorem libraryItems_paths (goos : String) (cfg : Config)
    (vi : VersionDetails) :
    (libraryItems goos cfg vi).map Item.path =
      (libraryRelPaths goos vi).map (joinPath cfg.librariesDir) := by
  unfold libraryItems libraryRelPaths
  rw [List.map_append, List.map_append, List.map_filterMap,
    List.map_filterMap]
  congr 1
  · congr 1
    funext lib
    by_cases hap : libraryApplies goos lib = false
    · simp [hap]
    · rcases hd : lib.downloads with _ | d
      · simp [hap, hd]
      · rcases hda : d.artifact with _ | a
        · simp [hap, hd, hda]
        · simp [hap, hd, hda]
  · cases vi.downloads.client <;> simp

/-- The full sharded destination path of one asset hash. -/
def assetDestPath (cfg : Config) (h : String) : String :=
  joinPath (joinPath (joinPath cfg.assetsDir "objects")
    (String.mk (h.data.take 2))) h

/-- Distinct hashes of length at least two shard to distinct destination
paths. -/
theorem assetDestPath_inj (cfg : Config) {h1 h2 : String}
    (hl1 : 2 ≤ h1.length) (hl2 : 2 ≤ h2.length)
    (heq : assetDestPath cfg h1 = assetDestPath cfg h2) : h1 = h2 := by
  have hd := congrArg String.data heq
  simp only [assetDestPath, joinPath, String.data_append,
    List.append_assoc] at hd
  have hd2 := List.append_cancel_left (List.append_cancel_left
    (List.append_cancel_left (List.append_cancel_left hd)))
  have hlen : (String.mk (h1.data.take 2)).data.length =
      (String.mk (h2.data.take 2)).data.length := by
    simp only [String.length] at hl1 hl2
    simp only [List.length_take]
    omega
  have := (List.append_inj hd2 hlen).2
  simp only [String.data_append] at this
  exact String.ext (List.append_cancel_left this)

/-- A successful asset item construction maps each entry to its sharded
destination path. -/
theorem assetItems_paths (cfg : Config) :
    ∀ (objects : List (String × AssetObject)) (items : List Item),
      assetItems cfg objects = some items →
      items.map Item.path =
        objects.map (fun p => assetDestPath cfg p.2.hash)
  | [], items, h => by
    have h2 : (some ([] : List Item)) = some items := h
    rw [← Option.some.inj h2]
    rfl
  | (n, obj) :: rest, items, h => by
    rw [List.map_cons]
    by_cases hlen : 2 ≤ obj.hash.length
    · have hslice : sliceTo2 obj.hash = some (String.mk (obj.hash.data.take 2)) := by
        unfold sliceTo2
        rw [if_pos hlen]
      unfold assetItems at h
      rw [hslice] at h
      rcases ho : assetItems cfg rest with _ | its
      · rw [ho] at h
        exact absurd h (by simp)
      · rw [ho] at h
        have := Option.some.inj h
        rw [← this, List.map_cons, assetItems_paths cfg rest its ho]
        rfl
    · unfold assetItems at h
      have : sliceTo2 obj.hash = none := by
        unfold sliceTo2
        rw [if_neg hlen]
      rw [this] at h
      exact absurd h (by simp)

/-- When the asset item construction succeeds, every entry's hash had at
least two bytes. -/
theorem assetItems_some_hash_len (cfg : Config) :
    ∀ (objects : List (String × AssetObject)) (items : List Item),
      assetItems cfg objects = some items →
      ∀ p ∈ objects, 2 ≤ p.2.hash.length
  | [], _, _ => by simp
  | (n, obj) :: rest, items, h => by
    intro p hp
    by_cases hlen : 2 ≤ obj.hash.length
    · rcases List.mem_cons.mp hp with rfl | hp2
      · exact hlen
      · have hslice : sliceTo2 obj.hash =
            some (String.mk (obj.hash.data.take 2)) := by
          unfold sliceTo2
          rw [if_pos hlen]
        unfold assetItems at h
        rw [hslice] at h
        rcases ho : assetItems cfg rest with _ | its
        · rw [ho] at h
          exact absurd h (by simp)
        · exact assetItems_some_hash_len cfg rest its ho p hp2
    · unfold assetItems at h
      have : sliceTo2 obj.hash = none := by
        unfold sliceTo2
        rw [if_neg hlen]
      rw [this] at h
      exact absurd h (by simp)

/-- C9 counterexample: two asset-index entries with distinct logical
names but the same content hash (as happens for duplicated assets)
produce a batch with two items sharing one destination path. -/
theorem c9_counterexample_duplicate_asset_hash :
    ((assetItems
        { dataDir := "", librariesDir := "/lib", assetsDir := "/as",
          jvmArgs := [] }
        [("minecraft/sounds/a.ogg", { hash := "abcd", size := 1 }),
         ("minecraft/sounds/b.ogg", { hash := "abcd", size := 1 })]).map
      (fun items => items.map Item.path)) =
      some ["/as/objects/ab/abcd", "/as/objects/ab/abcd"] ∧
    ¬ (["/as/objects/ab/abcd",
        "/as/objects/ab/abcd"].Pairwise (fun a b => a ≠ b)) := by
  constructor
  · rfl
  · decide

/-- C9 (amended): the library batch has pairwise distinct destination
paths whenever the rule-permitted artifact relative paths (together with
the client-jar conventional path) are pairwise distinct, and the asset
batch has pairwise distinct destination paths whenever the entries'
content hashes are pairwise distinct; duplicate hashes do produce
duplicate destinations. -/
theorem c9_distinct_destinations (goos : String) (cfg : Config)
    (vi : VersionDetails) (objects : List (String × AssetObject))
    (items : List Item) :
    ((libraryRelPaths goos vi).Pairwise (fun a b => a ≠ b) →
      ((libraryItems goos cfg vi).map Item.path).Pairwise
        (fun a b => a ≠ b)) ∧
    (assetItems cfg objects = some items →
      (objects.map (fun p => p.2.hash)).Pairwise (fun a b => a ≠ b) →
      (items.map Item.path).Pairwise (fun a b => a ≠ b)) := by
  constructor
  · intro hrel
    rw [libraryItems_paths, List.pairwise_map]
    exact hrel.imp (fun hne heq => hne (joinPath_inj_right _ heq))
  · intro hsome hdist
    rw [assetItems_paths cfg objects items hsome, List.pairwise_map]
    rw [List.pairwise_map] at hdist
    refine hdist.imp_of_mem (fun ha hb hne heq => hne ?_)
    exact assetDestPath_inj cfg
      (assetItems_some_hash_len cfg objects items hsome _ ha)
      (assetItems_some_hash_len cfg objects items hsome _ hb) heq

/-- Witness for the amended C9: a concrete two-entry asset index with
distinct hashes yields distinct destination paths. -/
theorem c9_witness :
    (([{ url := "https://resources.download.minecraft.net/ab/abcd",
         path := "/as/objects/ab/abcd", sha1 := "abcd", size := 1,
         priority := 0 },
       { url := "https://resources.download.minecraft.net/ef/efgh",
         path := "/as/objects/ef/efgh", sha1 := "efgh", size := 2,
         priority := 0 }] : List Item).map Item.path).Pairwise
      (fun a b => a ≠ b) :=
  (c9_distinct_destinations "linux"
    { dataDir := "", librariesDir := "/lib", assetsDir := "/as",
      jvmArgs := [] }
    { id := "1.21.4", vtype := "release", mainClass := "",
      minecraftArguments := "", libraries := [],
      assetIndex := { id := "17", sha1 := "", size := 0, totalSize := 0,
                      url := "" },
      assets := "17",
      downloads := { client := none, clientMappings := none,
                     server := none, serverMappings := none },
      javaVersion := { component := "", majorVersion := 21 } }
    [("a", { hash := "abcd", size := 1 }),
     ("b", { hash := "efgh", size := 2 })]
    [{ url := "https://resources.download.minecraft.net/ab/abcd",
       path := "/as/objects/ab/abcd", sha1 := "abcd", size := 1,
       priority := 0 },
     { url := "https://resources.download.minecraft.net/ef/efgh",
       path := "/as/objects/ef/efgh", sha1 := "efgh", size := 2,
       priority := 0 }]).2 (by rfl) (by decide)

/-- C10: building the asset item list takes the first two characters of
each hash without a length guard: an entry whose hash is shorter than
two bytes makes the step panic (modelled by `none`), and the construction
is total exactly under the precondition that every hash has length at
least two. -/
theorem c10_asset_item_building_not_total (cfg : Config)
    (objects : List (String × AssetObject)) :
    (assetItems
      { dataDir := "", librariesDir := "/lib", assetsDir := "/as",
        jvmArgs := [] }
      [("icons/icon_16x16.png", { hash := "a", size := 10 })] = none) ∧
    ((∀ p ∈ objects, 2 ≤ p.2.hash.length) →
      (assetItems cfg objects).isSome = true) := by
  constructor
  · rfl
  · intro hlen
    induction objects with
    | nil => rfl
    | cons p rest ih =>
      obtain ⟨n, obj⟩ := p
      have h2 : 2 ≤ obj.hash.length := hlen (n, obj) (List.mem_cons_self _ _)
      have hrest := ih (fun q hq => hlen q (List.mem_cons_of_mem _ hq))
      have hslice : sliceTo2 obj.hash =
          some (String.mk (obj.hash.data.take 2)) := by
        unfold sliceTo2
        rw [if_pos h2]
      unfold assetItems
      rw [hslice]
      rcases ho : assetItems cfg rest with _ | its
      · rw [ho] at hrest
        exact absurd hrest (by simp)
      · rfl

/-- Witness for C10: the totality clause at a concrete single-entry
index whose hash has two characters. -/
theorem c10_witness :
    (assetItems
      { dataDir := "", librariesDir := "/lib", assetsDir := "/as",
        jvmArgs := [] }
      [("m", { hash := "ab", size := 1 })]).isSome = true :=
  (c10_asset_item_building_not_total
    { dataDir := "", librariesDir := "/lib", assetsDir := "/as",
      jvmArgs := [] }
    [("m", { hash := "ab", size := 1 })]).2 (by decide)

end Mctui
